import Mathlib

/-!
Shallow embedding of the `RefManager` class of react-ref-manager
(src: the main RefManager module, referred to below by its method names).

Modelling conventions:
* JavaScript identifiers (string or number keys) are `JKey`.
* A React ref is either a plain DOM element (`Ref.dom`) or a component
  instance (`Ref.comp`).  DOM elements always expose `focus()` and
  `scrollIntoView()`; component instances may or may not, and
  `ReactDOM.findDOMNode` resolves them to an optional backing DOM node.
* The registry `this._refs` is a JavaScript object: an insertion-ordered
  association list from key to entry.  An entry is either a ref stored
  in singular form (`RegEntry.single`, together with any properties later
  glued onto that very object by the collection form of `set`) or a plain
  collection object (`RegEntry.coll`).
* `NotProvided` sentinel arguments are modelled by `Option` / by explicit
  call-shape inductives where the argument's runtime type is inspected.
* Listeners are opaque: they are identified by a `Nat` and dispatching one
  is recorded as an `Event` `(listener, previous, next)` in an event trace
  returned next to the result and the updated state.  The initial
  `this._focused = {}` object is the all-fields-absent `FocusObject`.
-/

/-- A JavaScript key: `String|Number` identifiers used throughout the API. -/
inductive JKey where
  | str (s : String)
  | num (n : Int)
deriving DecidableEq, Repr

/-- JavaScript truthiness of a key value (empty string and 0 are falsy). -/
def JKey.truthy : JKey → Bool
  | .str s => s ≠ ""
  | .num n => n ≠ 0

/-- A concrete DOM element.  `hasParent` is the truthiness of `parentNode`,
i.e. whether the element is mounted. -/
structure DomNode where
  nid : Nat
  hasParent : Bool
deriving DecidableEq, Repr

/-- A custom React component instance: whether it defines `focus()` and
`scrollIntoView()` methods, and the backing DOM node that
`ReactDOM.findDOMNode` resolves it to (`none` when unresolvable). -/
structure CompRef where
  cid : Nat
  hasFocusMethod : Bool
  hasScrollMethod : Bool
  domNode : Option DomNode
deriving DecidableEq, Repr

/-- A ref value as passed to `set` and handed back by `get`. -/
inductive Ref where
  | dom (d : DomNode)
  | comp (c : CompRef)
deriving DecidableEq, Repr

/-- Truthiness of `ref.focus`: DOM elements always have a focus method. -/
def Ref.hasFocusMethod : Ref → Bool
  | .dom _ => true
  | .comp c => c.hasFocusMethod

/-- Truthiness of `ref.scrollIntoView`: always present on DOM elements. -/
def Ref.hasScrollMethod : Ref → Bool
  | .dom _ => true
  | .comp c => c.hasScrollMethod

/-- `ReactDOM.findDOMNode` on a ref: a DOM element resolves to itself, a
component to its backing node. -/
def Ref.findDOMNode : Ref → Option DomNode
  | .dom d => some d
  | .comp c => c.domNode

/-- One entry of `this._refs`.  `single r props` is a ref stored in singular
form; `props` are the properties glued onto that same object when the
collection form of `set` runs while the singular entry is present (the code
does `this._refs[collectionId][itemIdOrRef] = ref` without replacing the
entry, mutating the stored ref object itself).  `coll props` is a plain
object created by `set`'s collection form. -/
inductive RegEntry where
  | single (r : Ref) (props : List (JKey × Ref))
  | coll (props : List (JKey × Ref))
deriving DecidableEq, Repr

/-- Association-list lookup, mirroring a JavaScript object property read. -/
def lookupAssoc {α : Type} : List (JKey × α) → JKey → Option α
  | [], _ => none
  | (k, v) :: rest, key => if k = key then some v else lookupAssoc rest key

/-- Association-list update, mirroring a JavaScript object property write:
an existing key keeps its position, a new key is appended (insertion order,
as observed by `Object.keys`). -/
def setAssoc {α : Type} : List (JKey × α) → JKey → α → List (JKey × α)
  | [], key, v => [(key, v)]
  | (k, w) :: rest, key, v =>
      if k = key then (k, v) :: rest else (k, w) :: setAssoc rest key v

/-- Property write on an entry (`this._refs[collectionId][itemIdOrRef] = ref`). -/
def RegEntry.setProp : RegEntry → JKey → Ref → RegEntry
  | .single r props, i, v => .single r (setAssoc props i v)
  | .coll props, i, v => .coll (setAssoc props i v)

/-- Property read on an entry (`this._refs[collectionId][itemId]`).  On a
singular entry this reads the glued-on properties of the stored ref object. -/
def RegEntry.getProp : RegEntry → JKey → Option Ref
  | .single _ props, i => lookupAssoc props i
  | .coll props, i => lookupAssoc props i

/-- `Object.keys` of an entry, in insertion order.  For a singular entry the
own enumerable properties are exactly the glued-on ones in this model. -/
def RegEntry.keys : RegEntry → List JKey
  | .single _ props => props.map Prod.fst
  | .coll props => props.map Prod.fst

/-- A value returned by `this.get`: either the whole entry (singular form of
the call) or one item ref (collection form of the call). -/
inductive Target where
  | item (r : Ref)
  | entry (e : RegEntry)
deriving DecidableEq, Repr

/-- Truthiness of `.focus` on a `get` result.  A plain collection object has
no focus method. -/
def Target.hasFocusMethod : Target → Bool
  | .item r => r.hasFocusMethod
  | .entry (.single r _) => r.hasFocusMethod
  | .entry (.coll _) => false

/-- Truthiness of `.scrollIntoView` on a `get` result. -/
def Target.hasScrollMethod : Target → Bool
  | .item r => r.hasScrollMethod
  | .entry (.single r _) => r.hasScrollMethod
  | .entry (.coll _) => false

/-- `ReactDOM.findDOMNode` on a `get` result.  A plain collection object is
not a component and has no backing node (React would raise; the claims never
reach this case, degradation to `none` stands in for it). -/
def Target.findDOMNode : Target → Option DomNode
  | .item r => r.findDOMNode
  | .entry (.single r _) => r.findDOMNode
  | .entry (.coll _) => none

/-- Property read of `.DOMRef` on a `get` result, as performed by
`scrollToById`.  Plain refs expose no `DOMRef` property; on stored entries it
could only be a glued-on or collection property under the literal key
string `DOMRef`. -/
def Target.domRefProp : Target → Option Target
  | .item _ => none
  | .entry (.single _ props) => (lookupAssoc props (.str "DOMRef")).map .item
  | .entry (.coll props) => (lookupAssoc props (.str "DOMRef")).map .item

/-- The `FocusObject` records built by `focus` and stored in `this._focused`.
`none` in an `Option` field plays the role of `null`/`undefined`; the
initial empty object `{}` is the record with every field absent and
`applied` falsy. -/
structure FocusObject where
  ref : Option Target := none
  DOMRef : Option Target := none
  id : Option JKey := none
  collectionId : Option JKey := none
  context : Option String := none
  applied : Bool := false
deriving DecidableEq, Repr

/-- The `ScrollObject` records returned by the scroll operations. -/
structure ScrollObject where
  id : Option JKey := none
  collectionId : Option JKey := none
  ref : Option Target := none
  DOMRef : Option Target := none
  applied : Bool := false
deriving DecidableEq, Repr

/-- One dispatched listener call: `(listener, previousFocus, focused)`. -/
abbrev Event := Nat × FocusObject × FocusObject

/-- The mutable state of one `RefManager` instance: `this._refs`,
`this._focused` and `this._focusListeners` (listeners by identity). -/
structure RMState where
  refs : List (JKey × RegEntry)
  focused : FocusObject
  focusListeners : List Nat
deriving DecidableEq, Repr

/-- The constructor: empty registry, `{}` focus object, no listeners. -/
def RMState.new : RMState :=
  { refs := [], focused := {}, focusListeners := [] }

/-- The `FocusDirection` enumeration. -/
inductive FocusDirection where
  | LEFT
  | RIGHT
  | UP
  | DOWN
deriving DecidableEq, Repr

/-- Static `RefManager.focus(ref)`: if the ref has a `focus` method it is
invoked and the ref itself returned; otherwise the backing DOM node is
looked up and, when mounted (`parentNode` truthy), focused and returned;
`null` in every failure case. -/
def staticFocus : Option Target → Option Target
  | none => none
  | some t =>
      if t.hasFocusMethod then some t
      else
        match t.findDOMNode with
        | some d => if d.hasParent then some (.item (.dom d)) else none
        | none => none

/-- Static `RefManager.scrollTo(ref, options)`: same resolution shape as
`staticFocus` but for `scrollIntoView`.  The options are forwarded to the
platform call and do not influence the returned value, so they are an
unused argument here. -/
def staticScrollTo (ref : Option Target) (options : Option Bool) : Option Target :=
  match ref, options with
  | none, _ => none
  | some t, _ =>
      if t.hasScrollMethod then some t
      else
        match t.findDOMNode with
        | some d => if d.hasParent then some (.item (.dom d)) else none
        | none => none

/-- `set(collectionId, ref)` (singular form, third argument not provided):
`this._refs[collectionId] = ref` — outright replacement of the entry. -/
def RMState.set1 (st : RMState) (collectionId : JKey) (ref : Ref) : RMState :=
  { st with refs := setAssoc st.refs collectionId (.single ref []) }

/-- `set(collectionId, itemId, ref)` (collection form): if
`this._refs[collectionId]` is falsy a fresh `{}` is installed first, and
then `this._refs[collectionId][itemId] = ref` writes a property on whatever
entry sits there — also when that entry is a ref stored in singular form,
which is then mutated in place rather than replaced. -/
def RMState.set2 (st : RMState) (collectionId itemId : JKey) (ref : Ref) : RMState :=
  match lookupAssoc st.refs collectionId with
  | none => { st with refs := setAssoc st.refs collectionId (.coll [(itemId, ref)]) }
  | some e => { st with refs := setAssoc st.refs collectionId (e.setProp itemId ref) }

/-- `get(collectionId)` (singular form): `this._refs[collectionId]`. -/
def RMState.get1 (st : RMState) (collectionId : JKey) : Option RegEntry :=
  lookupAssoc st.refs collectionId

/-- `get(collectionId, itemId)` (collection form):
`this._refs[collectionId] && this._refs[collectionId][itemId]`. -/
def RMState.get2 (st : RMState) (collectionId itemId : JKey) : Option Ref :=
  (lookupAssoc st.refs collectionId).bind (fun e => e.getProp itemId)

/-- `this.get(collectionId, itemId)` as the later operations call it, with
the item id possibly the `NotProvided` sentinel, wrapped into the
`Target` view of what the call returns. -/
def RMState.getTarget (st : RMState) (collectionId : JKey) (itemId : Option JKey) :
    Option Target :=
  match itemId with
  | none => (st.get1 collectionId).map .entry
  | some i => (st.get2 collectionId i).map .item

/-- `setCurrentFocus(focused)`: stores the record, then iterates
`this._focusListeners` in order, calling each with
`(previousFocus, focused)`, and returns the stored record.  Dispatches are
returned as the event trace. -/
def RMState.setCurrentFocus (st : RMState) (focused : FocusObject) :
    FocusObject × RMState × List Event :=
  let previousFocus := st.focused
  (focused, { st with focused := focused },
    st.focusListeners.map (fun l => (l, previousFocus, focused)))

/-- The `{ id, collectionId, context }` options hash destructured by the
instance method `focus`.  `none` stands for an absent or `undefined`
property. -/
structure FocusOpts where
  id : Option JKey := none
  collectionId : Option JKey := none
  context : Option String := none
deriving DecidableEq, Repr

/-- Instance `focus(ref, { id, collectionId, context })`: with a truthy ref,
resolve and apply platform focus via the static method and route the built
record through `setCurrentFocus`; with a falsy ref, return the failed
record directly, leaving the state untouched and dispatching nothing. -/
def RMState.focus (st : RMState) (ref : Option Target) (opts : FocusOpts) :
    FocusObject × RMState × List Event :=
  match ref with
  | some t =>
      let DOMRef := staticFocus (some t)
      st.setCurrentFocus
        { ref := some t, DOMRef := DOMRef, id := opts.id,
          collectionId := opts.collectionId, context := opts.context,
          applied := DOMRef.isSome }
  | none =>
      ({ ref := none, DOMRef := none, id := opts.id,
         collectionId := opts.collectionId, context := opts.context,
         applied := false }, st, [])

/-- The call shapes of `focusById(collectionId, itemIdOrOptions, options)`:
one argument; a second argument that is a key (non-object); a second
argument that is an options object; or all three arguments. -/
inductive FocusByIdArgs where
  | one
  | twoId (itemId : JKey)
  | twoOpts (o : FocusOpts)
  | three (itemId : JKey) (o : FocusOpts)
deriving DecidableEq, Repr

/-- `focusById`: decode the overloaded arguments exactly as the source does
(`typeof itemIdOrOptions` object test, then an `if (_itemId)` truthiness
test), resolve the target through `get`, and delegate to `focus` with the
options object built by the corresponding spread expression. -/
def RMState.focusById (st : RMState) (collectionId : JKey) (args : FocusByIdArgs) :
    FocusObject × RMState × List Event :=
  match args with
  | .one =>
      st.focus ((st.get1 collectionId).map .entry)
        { id := none, collectionId := some collectionId, context := none }
  | .twoId i =>
      if i.truthy then
        st.focus ((st.get2 collectionId i).map .item)
          { id := some i, collectionId := some collectionId, context := none }
      else
        st.focus ((st.get1 collectionId).map .entry)
          { id := none, collectionId := some collectionId, context := none }
  | .twoOpts o =>
      st.focus ((st.get1 collectionId).map .entry)
        { id := o.id, collectionId := o.collectionId <|> some collectionId,
          context := o.context }
  | .three i o =>
      st.focus ((st.get2 collectionId i).map .item)
        { id := some i, collectionId := some collectionId, context := o.context }

/-- Index of the first occurrence of a key, if any. -/
def idxOf? {α : Type} [DecidableEq α] : List α → α → Option Nat
  | [], _ => none
  | a :: rest, k => if a = k then some 0 else (idxOf? rest k).map (· + 1)

/-- JavaScript `Array.prototype.indexOf` against a possibly-`undefined`
needle: `-1` when the needle is `undefined` or absent. -/
def jsIndexOf (l : List JKey) (x : Option JKey) : Int :=
  match x with
  | none => -1
  | some k =>
      match idxOf? l k with
      | none => -1
      | some n => n

/-- JavaScript array subscript with an `Int` index: `undefined` out of
bounds (negative indexes included). -/
def jsIdx (l : List JKey) (i : Int) : Option JKey :=
  if 0 ≤ i then l.get? i.toNat else none

/-- The options hash destructured by `focusNext`, with the source's
defaults (`direction = RIGHT`, `collectionWidth = 1`, both wraps false). -/
structure FocusNextOpts where
  direction : FocusDirection := .RIGHT
  indexes : Option (List JKey) := none
  collectionId : Option JKey := none
  context : Option String := none
  collectionWidth : Int := 1
  yWrap : Bool := false
  xWrap : Bool := false
deriving DecidableEq, Repr

/-- The anonymous navigator function inside `focusNext` computing
`nextRefId` from the current index, direction, row width and wrap flags. -/
def nextRefIdFun (direction : FocusDirection) (indexesToUse : List JKey)
    (refIdsIndex collectionWidth : Int) (xWrap yWrap : Bool) : Option JKey :=
  match direction with
  | .LEFT =>
      if 0 ≤ refIdsIndex - 1 then jsIdx indexesToUse (refIdsIndex - 1)
      else if xWrap then jsIdx indexesToUse ((indexesToUse.length : Int) - 1)
      else jsIdx indexesToUse 0
  | .RIGHT =>
      if refIdsIndex + 1 < (indexesToUse.length : Int) then
        jsIdx indexesToUse (refIdsIndex + 1)
      else if xWrap then jsIdx indexesToUse 0
      else jsIdx indexesToUse ((indexesToUse.length : Int) - 1)
  | .UP =>
      if 0 ≤ refIdsIndex - collectionWidth then
        jsIdx indexesToUse (refIdsIndex - collectionWidth)
      else if yWrap then jsIdx indexesToUse ((indexesToUse.length : Int) - 1)
      else jsIdx indexesToUse 0
  | .DOWN =>
      if refIdsIndex + collectionWidth < (indexesToUse.length : Int) then
        jsIdx indexesToUse (refIdsIndex + collectionWidth)
      else if yWrap then jsIdx indexesToUse 0
      else jsIdx indexesToUse ((indexesToUse.length : Int) - collectionWidth)

/-- `focusNext(refCollection, options)`: a falsy collection yields the
failed record (with no id field); otherwise the candidate identifiers are
the supplied `indexes` or `Object.keys(refCollection)`, and either the
cold-start branch (collection mismatch or current id not found) focuses the
first identifier, or the navigator picks `nextRefId` and its ref (possibly
absent) is focused. -/
def RMState.focusNext (st : RMState) (refCollection : Option RegEntry)
    (opts : FocusNextOpts) : FocusObject × RMState × List Event :=
  match refCollection with
  | none =>
      ({ ref := none, DOMRef := none, id := none,
         collectionId := opts.collectionId, context := opts.context,
         applied := false }, st, [])
  | some rc =>
      let currentFocus := st.focused
      let indexesToUse := opts.indexes.getD rc.keys
      let refIdsIndex := jsIndexOf indexesToUse currentFocus.id
      if currentFocus.collectionId ≠ opts.collectionId ∨ refIdsIndex = -1 then
        let firstRefId := indexesToUse.head?
        st.focus ((firstRefId.bind rc.getProp).map .item)
          { id := firstRefId, collectionId := opts.collectionId,
            context := opts.context }
      else
        let nextRefId :=
          nextRefIdFun opts.direction indexesToUse refIdsIndex
            opts.collectionWidth opts.xWrap opts.yWrap
        st.focus ((nextRefId.bind rc.getProp).map .item)
          { id := nextRefId, collectionId := opts.collectionId,
            context := opts.context }

/-- `focusNextById(collectionId, options)`: look the collection up in the
registry and delegate, overriding `collectionId` in the options. -/
def RMState.focusNextById (st : RMState) (collectionId : JKey)
    (opts : FocusNextOpts) : FocusObject × RMState × List Event :=
  st.focusNext (st.get1 collectionId) { opts with collectionId := some collectionId }

/-- Opaque values a caller can put in the `scrollIntoView` options slot:
a boolean, an options object, or (through the overload decoding) a number
that was meant as an item id. -/
inductive ScrollOpts where
  | boolOpt (b : Bool)
  | objOpt (oid : Nat)
  | numOpt (n : Int)
deriving DecidableEq, Repr

/-- The call shapes of `scrollToById(collectionId, itemIdOrOptions,
options)`: one argument; a second argument that is a string, a number or an
options value; or all three arguments. -/
inductive ScrollByIdArgs where
  | one
  | twoStr (s : String)
  | twoNum (n : Int)
  | twoOpts (o : ScrollOpts)
  | three (itemId : JKey) (o : ScrollOpts)
deriving DecidableEq, Repr

/-- The anonymous decoder at the top of `scrollToById`: with no third
argument, the second argument is an item id exactly when
`typeof itemIdOrOptions === 'string'`; any other second argument (numbers
included) is put in the options slot with the item id left not provided. -/
def scrollByIdParse : ScrollByIdArgs → Option JKey × Option ScrollOpts
  | .one => (none, none)
  | .twoStr s => (some (.str s), none)
  | .twoNum n => (none, some (.numOpt n))
  | .twoOpts o => (none, some o)
  | .three i o => (some i, some o)

/-- `scrollToById`: decode the arguments, resolve `this.get(collectionId,
_itemId)`, and when the result is truthy scroll to its `.DOMRef` property
through the static `scrollTo`; the record's `applied` is the truthiness of
what `scrollTo` returned.  Focus state, registry and listeners are not
touched and no listener fires, which the returned state and trace record. -/
def RMState.scrollToById (st : RMState) (collectionId : JKey)
    (args : ScrollByIdArgs) : ScrollObject × RMState × List Event :=
  let parsed := scrollByIdParse args
  let ref := st.getTarget collectionId parsed.1
  match ref with
  | some t =>
      let scrolledToRef := staticScrollTo t.domRefProp (parsed.2.map (fun _ => true))
      ({ id := parsed.1, collectionId := some collectionId, ref := some t,
         DOMRef := scrolledToRef, applied := scrolledToRef.isSome }, st, [])
  | none =>
      ({ id := parsed.1, collectionId := some collectionId, ref := none,
         DOMRef := none, applied := false }, st, [])

/-- `addFocusChangeListener(listener)`: push onto `this._focusListeners`
and return the listener. -/
def RMState.addFocusChangeListener (st : RMState) (listener : Nat) :
    Nat × RMState :=
  (listener, { st with focusListeners := st.focusListeners ++ [listener] })

/-- `removeFocusChangeListener(listener)`: when the listener is found at
`listenerIndex`, the source rebuilds the array as
`[...this._focusListeners.splice(0, listenerIndex),
   ...this._focusListeners.splice(listenerIndex + 1)]`.
`splice` mutates: the first call removes (and yields) the first
`listenerIndex` elements, leaving the array starting at `listenerIndex`;
the second call then drops everything from position `listenerIndex + 1` of
that already-shortened array.  The reassignment keeps exactly those two
yielded slices.  An unknown listener (`indexOf === -1`) leaves the list
unchanged. -/
def RMState.removeFocusChangeListener (st : RMState) (listener : Nat) : RMState :=
  match idxOf? st.focusListeners listener with
  | none => st
  | some listenerIndex =>
      let removedFirst := st.focusListeners.take listenerIndex
      let remaining := st.focusListeners.drop listenerIndex
      let removedSecond := remaining.drop (listenerIndex + 1)
      { st with focusListeners := removedFirst ++ removedSecond }

/-! Helper lemmas shared by the claim theorems. -/

/-- The record returned by `focus` carries the id supplied in the options,
on both the applied and the failed path. -/
theorem focus_fst_id (st : RMState) (t : Option Target) (opts : FocusOpts) :
    (st.focus t opts).1.id = opts.id := by
  cases t <;> rfl

/-- The record returned by `focus` stores exactly the ref it was handed. -/
theorem focus_fst_ref (st : RMState) (t : Option Target) (opts : FocusOpts) :
    (st.focus t opts).1.ref = t := by
  cases t <;> rfl

/-- The record returned by `focus` carries the collectionId supplied in the
options. -/
theorem focus_fst_collectionId (st : RMState) (t : Option Target) (opts : FocusOpts) :
    (st.focus t opts).1.collectionId = opts.collectionId := by
  cases t <;> rfl

/-- When the record returned by `focus` has no ref, the call was the failed
path: `applied` is false, the state is untouched and nothing dispatched. -/
theorem focus_miss (st : RMState) (t : Option Target) (opts : FocusOpts)
    (h : (st.focus t opts).1.ref = none) :
    (st.focus t opts).1.applied = false ∧
      (st.focus t opts).2.1 = st ∧ (st.focus t opts).2.2 = [] := by
  cases t with
  | none => exact ⟨rfl, rfl, rfl⟩
  | some t => simp [RMState.focus, RMState.setCurrentFocus] at h

/-- Reading back the key just written into an association list. -/
theorem lookup_setAssoc_self {α : Type} (l : List (JKey × α)) (k : JKey) (v : α) :
    lookupAssoc (setAssoc l k v) k = some v := by
  induction l with
  | nil => simp [setAssoc, lookupAssoc]
  | cons hd tl ih =>
      obtain ⟨a, b⟩ := hd
      by_cases h : a = k <;> simp [setAssoc, lookupAssoc, h, ih]

/-- C2: for every options value `{id, collectionId, context}`, calling
`focus` with an absent ref returns a record with `applied = false`,
`ref = null` and `DOMRef = null` that preserves the supplied id,
collectionId and context, and leaves the current-focus record, the registry
and the listener list (the whole state) unchanged, dispatching nothing. -/
theorem C2_focus_absent_ref (st : RMState) (opts : FocusOpts) :
    st.focus none opts =
      ({ ref := none, DOMRef := none, id := opts.id,
         collectionId := opts.collectionId, context := opts.context,
         applied := false }, st, []) := rfl

/-- C1 counterexample: with one registered listener and an empty registry,
`focusById` on an unregistered identifier returns the failed record but
dispatches to no listener at all — the claim's "every registered listener
is still invoked with this failed record" is false at this input. -/
theorem C1_counterexample :
    ((RMState.focusById { refs := [], focused := {}, focusListeners := [7] }
        (.str "toolbar") .one).2.2 = []) ∧
    (({ refs := [], focused := {}, focusListeners := [7] } : RMState).focusListeners
        ≠ []) ∧
    ((RMState.focusById { refs := [], focused := {}, focusListeners := [7] }
        (.str "toolbar") .one).1.applied = false) ∧
    ((RMState.focusById { refs := [], focused := {}, focusListeners := [7] }
        (.str "toolbar") .one).1.ref = none) := by
  decide

/-- C1 amended: when the lookup that `focusById` actually performs misses
the registry, the call returns the full failed record — `ref = null`,
`DOMRef = null`, `applied = false`, the derived `id` (the item id when one
is used for the lookup, absent otherwise) and `collectionId` set to the
supplied collection id — but the focus-change listeners are not invoked
and the state (current focus, registry, listener list) is left unchanged.
The lookup that must miss is the singular entry for a one-identifier call;
the collection/item entry for a pair call with a truthy item id, and for
every three-argument call; a falsy item id makes the code fall back to the
singular entry under the collection id, so there it is that singular entry
that must be absent. -/
theorem C1_amended_focusById_miss :
    (∀ (st : RMState) (c : JKey), st.get1 c = none →
        st.focusById c .one =
          ({ ref := none, DOMRef := none, id := none, collectionId := some c,
             context := none, applied := false }, st, [])) ∧
    (∀ (st : RMState) (c i : JKey), i.truthy = true → st.get2 c i = none →
        st.focusById c (.twoId i) =
          ({ ref := none, DOMRef := none, id := some i, collectionId := some c,
             context := none, applied := false }, st, [])) ∧
    (∀ (st : RMState) (c i : JKey), i.truthy = false → st.get1 c = none →
        st.focusById c (.twoId i) =
          ({ ref := none, DOMRef := none, id := none, collectionId := some c,
             context := none, applied := false }, st, [])) ∧
    (∀ (st : RMState) (c i : JKey) (o : FocusOpts), st.get2 c i = none →
        st.focusById c (.three i o) =
          ({ ref := none, DOMRef := none, id := some i, collectionId := some c,
             context := o.context, applied := false }, st, [])) := by
  refine ⟨?_, ?_, ?_, ?_⟩
  · intro st c h
    simp only [RMState.focusById]
    rw [h]
    rfl
  · intro st c i ht h
    simp only [RMState.focusById]
    rw [if_pos ht, h]
    rfl
  · intro st c i ht h
    simp only [RMState.focusById]
    rw [if_neg (by simp [ht]), h]
    rfl
  · intro st c i o h
    simp only [RMState.focusById]
    rw [h]
    rfl

/-- C1 witness: the amended theorem applied to concrete managers — a miss
of the singular identifier `toolbar` on a fresh manager, and a miss of the
pair `(items, row)` on a manager whose `items` collection holds only a
different item. -/
theorem C1_amended_focusById_miss_witness :
    (RMState.new.get1 (.str "toolbar") = none ∧
      RMState.new.focusById (.str "toolbar") .one =
        ({ ref := none, DOMRef := none, id := none,
           collectionId := some (.str "toolbar"), context := none,
           applied := false }, RMState.new, [])) ∧
    ((JKey.str "row").truthy = true ∧
      (RMState.new.set2 (.str "items") (.str "other")
          (.dom ⟨1, true⟩)).get2 (.str "items") (.str "row") = none ∧
      (RMState.new.set2 (.str "items") (.str "other")
          (.dom ⟨1, true⟩)).focusById (.str "items") (.twoId (.str "row")) =
        ({ ref := none, DOMRef := none, id := some (.str "row"),
           collectionId := some (.str "items"), context := none,
           applied := false },
         RMState.new.set2 (.str "items") (.str "other") (.dom ⟨1, true⟩), [])) :=
  ⟨⟨by decide,
      C1_amended_focusById_miss.1 RMState.new (.str "toolbar") (by decide)⟩,
    ⟨by decide, by decide,
      C1_amended_focusById_miss.2.1
        (RMState.new.set2 (.str "items") (.str "other") (.dom ⟨1, true⟩))
        (.str "items") (.str "row") (by decide) (by decide)⟩⟩

/-- C6 counterexample: register a singular ref under `k`, then register a
collection item under the same `k`.  `get(k)` still returns the original
singular registration (now carrying the item as a glued-on property), not a
plain collection — the prior registration was not replaced, falsifying
"last write wins, no merge" for this direction. -/
theorem C6_counterexample :
    (((RMState.new.set1 (.str "k") (.comp ⟨1, true, true, none⟩)).set2
        (.str "k") (.str "i") (.comp ⟨2, true, true, none⟩)).get1 (.str "k") =
      some (.single (.comp ⟨1, true, true, none⟩)
        [(.str "i", .comp ⟨2, true, true, none⟩)])) ∧
    (((RMState.new.set1 (.str "k") (.comp ⟨1, true, true, none⟩)).set2
        (.str "k") (.str "i") (.comp ⟨2, true, true, none⟩)).get1 (.str "k") ≠
      some (.coll [(.str "i", .comp ⟨2, true, true, none⟩)])) := by
  decide

/-- C6 amended: a singular registration under `k` replaces whatever was
registered under `k` entirely; but a collection-item registration under `k`
performed while a singular registration is present does not replace it —
the item is written as a property onto the stored singular target, and
`get(k)` keeps returning that original singular registration, now carrying
the item. -/
theorem C6_amended_namespace_overwrite :
    (∀ (st : RMState) (k : JKey) (r : Ref),
        (st.set1 k r).get1 k = some (.single r [])) ∧
    (∀ (st : RMState) (k i : JKey) (r r2 : Ref) (props : List (JKey × Ref)),
        st.get1 k = some (.single r props) →
        (st.set2 k i r2).get1 k = some (.single r (setAssoc props i r2))) := by
  constructor
  · intro st k r
    exact lookup_setAssoc_self st.refs k (.single r [])
  · intro st k i r r2 props h
    unfold RMState.set2
    unfold RMState.get1 at h
    rw [h]
    exact lookup_setAssoc_self st.refs k ((RegEntry.single r props).setProp i r2)

/-- C6 witness: the amended theorem's collection-after-singular direction
applied to a concrete manager. -/
theorem C6_amended_namespace_overwrite_witness :
    ((RMState.new.set1 (.str "k") (.comp ⟨1, true, true, none⟩)).get1 (.str "k") =
        some (.single (.comp ⟨1, true, true, none⟩) [])) ∧
      (((RMState.new.set1 (.str "k") (.comp ⟨1, true, true, none⟩)).set2
          (.str "k") (.str "i") (.comp ⟨2, true, true, none⟩)).get1 (.str "k") =
        some (.single (.comp ⟨1, true, true, none⟩)
          (setAssoc [] (.str "i") (.comp ⟨2, true, true, none⟩)))) :=
  ⟨by decide,
    C6_amended_namespace_overwrite.2 (RMState.new.set1 (.str "k")
        (.comp ⟨1, true, true, none⟩)) (.str "k") (.str "i")
      (.comp ⟨1, true, true, none⟩) (.comp ⟨2, true, true, none⟩) [] (by decide)⟩

/-- C3, behavior of the code at the claimed input: six candidate
identifiers, row width 3, current focus on index 4 of the same collection,
direction DOWN with `yWrap = true`.  The code selects the identifier at
index 0, not the identifier at index 1 (top row, same column) that its own
documentation promises. -/
theorem C3_code_behavior :
    ((RMState.focusNext
        { refs := [],
          focused := { id := some (.num 4), collectionId := some (.str "grid") },
          focusListeners := [] }
        (some (.coll [(.num 0, .dom ⟨0, true⟩), (.num 1, .dom ⟨1, true⟩),
          (.num 2, .dom ⟨2, true⟩), (.num 3, .dom ⟨3, true⟩),
          (.num 4, .dom ⟨4, true⟩), (.num 5, .dom ⟨5, true⟩)]))
        { direction := .DOWN,
          indexes := some [.num 0, .num 1, .num 2, .num 3, .num 4, .num 5],
          collectionId := some (.str "grid"), collectionWidth := 3,
          yWrap := true }).1.id = some (.num 0)) ∧
    (some (JKey.num 0) ≠
      ([JKey.num 0, .num 1, .num 2, .num 3, .num 4, .num 5].get? 1)) := by
  decide

/-- C5: whenever the current focus's collectionId differs from the target
collection's id, or its id is not present in the (non-empty) candidate
sequence, `focusNext` selects the first identifier of the sequence and
attempts to focus its target, whatever the direction and wrap flags. -/
theorem C5_focusNext_reset (st : RMState) (rc : RegEntry) (a : JKey)
    (rest : List JKey) (cid : Option JKey) (d : FocusDirection)
    (ctx : Option String) (cw : Int) (xw yw : Bool)
    (hmiss : st.focused.collectionId ≠ cid ∨
      jsIndexOf (a :: rest) st.focused.id = -1) :
    ((st.focusNext (some rc)
        { direction := d, indexes := some (a :: rest), collectionId := cid,
          context := ctx, collectionWidth := cw, yWrap := yw,
          xWrap := xw }).1.id = some a) ∧
    ((st.focusNext (some rc)
        { direction := d, indexes := some (a :: rest), collectionId := cid,
          context := ctx, collectionWidth := cw, yWrap := yw,
          xWrap := xw }).1.ref = (rc.getProp a).map .item) := by
  simp only [RMState.focusNext, Option.getD_some]
  rw [if_pos hmiss]
  exact ⟨focus_fst_id _ _ _, focus_fst_ref _ _ _⟩

/-- C5 witness: a fresh focus record (no collection, no id) against a
four-element candidate sequence resets to the first identifier. -/
theorem C5_focusNext_reset_witness :
    ((({} : FocusObject).collectionId ≠ some (JKey.str "g") ∨
        jsIndexOf [JKey.num 0, .num 1, .num 2, .num 3]
          (({} : FocusObject)).id = -1) ∧
      (((RMState.new.focusNext (some (.coll [(.num 0, .dom ⟨0, true⟩)]))
          { direction := .LEFT, indexes := some [JKey.num 0, .num 1, .num 2, .num 3],
            collectionId := some (JKey.str "g"), context := none,
            collectionWidth := 1, yWrap := false, xWrap := true }).1.id
          = some (JKey.num 0)) ∧
        ((RMState.new.focusNext (some (.coll [(.num 0, .dom ⟨0, true⟩)]))
          { direction := .LEFT, indexes := some [JKey.num 0, .num 1, .num 2, .num 3],
            collectionId := some (JKey.str "g"), context := none,
            collectionWidth := 1, yWrap := false, xWrap := true }).1.ref
          = ((RegEntry.coll [(.num 0, .dom ⟨0, true⟩)]).getProp (JKey.num 0)).map
              .item))) :=
  ⟨Or.inl (by decide),
    C5_focusNext_reset RMState.new (.coll [(.num 0, .dom ⟨0, true⟩)]) (JKey.num 0)
      [.num 1, .num 2, .num 3] (some (JKey.str "g")) .LEFT none 1 true false
      (Or.inl (by decide))⟩

/-- C8, behavior of the code at the failing input: with listeners
`[10, 11, 12]`, removing the middle listener `11` leaves `[10]` — listener
`12` is dropped as well, instead of the `[10, 12]` the claim requires. -/
theorem C8_code_behavior :
    ((RMState.removeFocusChangeListener
        { refs := [], focused := {}, focusListeners := [10, 11, 12] }
        11).focusListeners = [10]) ∧
    ((RMState.removeFocusChangeListener
        { refs := [], focused := {}, focusListeners := [10, 11, 12] }
        11).focusListeners ≠ [10, 12]) := by
  decide

/-- C9, behavior of the code at the failing input: a mounted DOM element
(which has its own `scrollIntoView`) is registered under the singular key
`toolbar`, yet `scrollToById` returns `applied = false` with a null
`DOMRef`, because the code hands `ref.DOMRef` — a property a stored ref
does not have — to the static `scrollTo` instead of the ref itself. -/
theorem C9_code_behavior :
    (((RMState.new.set1 (.str "toolbar") (.dom ⟨5, true⟩)).scrollToById
        (.str "toolbar") .one).1.applied = false) ∧
    (((RMState.new.set1 (.str "toolbar") (.dom ⟨5, true⟩)).scrollToById
        (.str "toolbar") .one).1.ref =
      some (.entry (.single (.dom ⟨5, true⟩) []))) ∧
    (((RMState.new.set1 (.str "toolbar") (.dom ⟨5, true⟩)).scrollToById
        (.str "toolbar") .one).1.DOMRef = none) := by
  decide

/-- C4: with the current focus in the target collection at index `i` of the
candidate sequence, direction DOWN moves to index `i + w` when that is in
range, and with `yWrap = false` clamps to index `length − w` (the start of
the last row) when it is not. -/
theorem C4_focusNext_down_step (st : RMState) (rc : RegEntry) (idx : List JKey)
    (cid : JKey) (ctx : Option String) (xw : Bool) (i w : Nat)
    (hcid : st.focused.collectionId = some cid)
    (hidx : jsIndexOf idx st.focused.id = (i : Int))
    (hw1 : 1 ≤ w) (hwn : w ≤ idx.length) (hi : i < idx.length) :
    (st.focusNext (some rc)
        { direction := .DOWN, indexes := some idx, collectionId := some cid,
          context := ctx, collectionWidth := (w : Int), yWrap := false,
          xWrap := xw }).1.id =
      (if i + w < idx.length then idx.get? (i + w)
       else idx.get? (idx.length - w)) := by
  have hne : ¬(st.focused.collectionId ≠ some cid ∨
      jsIndexOf idx st.focused.id = -1) := by
    rw [hcid, hidx]
    push_neg
    exact ⟨rfl, by omega⟩
  simp only [RMState.focusNext, Option.getD_some]
  rw [if_neg hne, focus_fst_id, hidx]
  by_cases hlt : i + w < idx.length
  · have h1 : (i : Int) + (w : Int) < (idx.length : Int) := by exact_mod_cast hlt
    rw [if_pos hlt]
    simp only [nextRefIdFun, if_pos h1, jsIdx]
    rw [if_pos (by positivity : (0 : Int) ≤ (i : Int) + (w : Int))]
    congr 1
  · have h1 : ¬((i : Int) + (w : Int) < (idx.length : Int)) := by omega
    rw [if_neg hlt]
    simp only [nextRefIdFun, if_neg h1, Bool.false_eq_true, if_false, jsIdx]
    rw [if_pos (by omega : (0 : Int) ≤ (idx.length : Int) - (w : Int))]
    congr 1
    omega

/-- C4 witness: six candidates in a 3-wide grid, current focus at index 1,
direction DOWN lands on index 4. -/
theorem C4_focusNext_down_step_witness :
    (jsIndexOf [JKey.num 0, .num 1, .num 2, .num 3, .num 4, .num 5]
        ({ refs := [],
           focused := { id := some (.num 1), collectionId := some (.str "g") },
           focusListeners := [] } : RMState).focused.id = ((1 : Nat) : Int)) ∧
    ((RMState.focusNext
        { refs := [],
          focused := { id := some (.num 1), collectionId := some (.str "g") },
          focusListeners := [] }
        (some (.coll [(.num 0, .dom ⟨0, true⟩), (.num 1, .dom ⟨1, true⟩),
          (.num 2, .dom ⟨2, true⟩), (.num 3, .dom ⟨3, true⟩),
          (.num 4, .dom ⟨4, true⟩), (.num 5, .dom ⟨5, true⟩)]))
        { direction := .DOWN,
          indexes := some [JKey.num 0, .num 1, .num 2, .num 3, .num 4, .num 5],
          collectionId := some (.str "g"), context := none,
          collectionWidth := ((3 : Nat) : Int), yWrap := false,
          xWrap := false }).1.id =
      (if 1 + 3 < ([JKey.num 0, .num 1, .num 2, .num 3, .num 4, .num 5]).length
       then ([JKey.num 0, .num 1, .num 2, .num 3, .num 4, .num 5]).get? (1 + 3)
       else ([JKey.num 0, .num 1, .num 2, .num 3, .num 4,
          .num 5]).get? (([JKey.num 0, .num 1, .num 2, .num 3, .num 4,
          .num 5]).length - 3))) :=
  ⟨by decide,
    C4_focusNext_down_step
      { refs := [],
        focused := { id := some (.num 1), collectionId := some (.str "g") },
        focusListeners := [] }
      (.coll [(.num 0, .dom ⟨0, true⟩), (.num 1, .dom ⟨1, true⟩),
        (.num 2, .dom ⟨2, true⟩), (.num 3, .dom ⟨3, true⟩),
        (.num 4, .dom ⟨4, true⟩), (.num 5, .dom ⟨5, true⟩)])
      [JKey.num 0, .num 1, .num 2, .num 3, .num 4, .num 5]
      (.str "g") none false 1 3 rfl (by decide) (by decide) (by decide)
      (by decide)⟩

/-- C7: `setCurrentFocus(r)` replaces the stored record with `r`, returns
`r`, touches nothing else, and dispatches to every registered listener in
registration order, each exactly once with the identical pair
`(previous, r)`; and every other operation either routes its dispatch
through `setCurrentFocus` or dispatches nothing at all (the scroll path
also leaves the state untouched). -/
theorem C7_setCurrentFocus_dispatch :
    (∀ (st : RMState) (r : FocusObject),
        (st.setCurrentFocus r).1 = r ∧
        (st.setCurrentFocus r).2.1.focused = r ∧
        (st.setCurrentFocus r).2.1.refs = st.refs ∧
        (st.setCurrentFocus r).2.1.focusListeners = st.focusListeners ∧
        (st.setCurrentFocus r).2.2 =
          st.focusListeners.map (fun l => (l, st.focused, r))) ∧
    (∀ (st : RMState) (t : Option Target) (opts : FocusOpts),
        (st.focus t opts).2.2 = [] ∨
        ∃ rec : FocusObject, st.focus t opts = st.setCurrentFocus rec) ∧
    (∀ (st : RMState) (c : JKey) (args : FocusByIdArgs),
        (st.focusById c args).2.2 = [] ∨
        ∃ rec : FocusObject, st.focusById c args = st.setCurrentFocus rec) ∧
    (∀ (st : RMState) (rcOpt : Option RegEntry) (opts : FocusNextOpts),
        (st.focusNext rcOpt opts).2.2 = [] ∨
        ∃ rec : FocusObject, st.focusNext rcOpt opts = st.setCurrentFocus rec) ∧
    (∀ (st : RMState) (c : JKey) (opts : FocusNextOpts),
        (st.focusNextById c opts).2.2 = [] ∨
        ∃ rec : FocusObject, st.focusNextById c opts = st.setCurrentFocus rec) ∧
    (∀ (st : RMState) (c : JKey) (args : ScrollByIdArgs),
        (st.scrollToById c args).2.1 = st ∧ (st.scrollToById c args).2.2 = []) := by
  have hfocus : ∀ (st : RMState) (t : Option Target) (opts : FocusOpts),
      (st.focus t opts).2.2 = [] ∨
      ∃ rec : FocusObject, st.focus t opts = st.setCurrentFocus rec := by
    intro st t opts
    cases t with
    | none => exact Or.inl rfl
    | some t => exact Or.inr ⟨_, rfl⟩
  have hnext : ∀ (st : RMState) (rcOpt : Option RegEntry) (opts : FocusNextOpts),
      (st.focusNext rcOpt opts).2.2 = [] ∨
      ∃ rec : FocusObject, st.focusNext rcOpt opts = st.setCurrentFocus rec := by
    intro st rcOpt opts
    cases rcOpt with
    | none => exact Or.inl rfl
    | some rc =>
        simp only [RMState.focusNext]
        split
        · exact hfocus _ _ _
        · exact hfocus _ _ _
  refine ⟨fun st r => ⟨rfl, rfl, rfl, rfl, rfl⟩, hfocus, ?_, hnext, ?_, ?_⟩
  · intro st c args
    cases args with
    | one => exact hfocus _ _ _
    | twoId i =>
        simp only [RMState.focusById]
        split
        · exact hfocus _ _ _
        · exact hfocus _ _ _
    | twoOpts o => exact hfocus _ _ _
    | three i o => exact hfocus _ _ _
  · intro st c opts
    exact hnext _ _ _
  · intro st c args
    cases h : st.getTarget c (scrollByIdParse args).1 with
    | none => simp [RMState.scrollToById, h]
    | some t => simp [RMState.scrollToById, h]

/-- C10: in a two-argument call to `scrollToById`, the second argument is
used as an item identifier exactly when it is a string; a number (a type
the registry accepts as an item key) or any other non-string value is
instead put in the `scrollIntoView` options slot, and the registry lookup
falls back to the singular entry stored directly under the collection id. -/
theorem C10_scrollToById_second_arg_typeof :
    (∀ (st : RMState) (c : JKey) (n : Int),
        scrollByIdParse (.twoNum n) = (none, some (.numOpt n)) ∧
        (st.scrollToById c (.twoNum n)).1.ref = (st.get1 c).map .entry ∧
        (st.scrollToById c (.twoNum n)).1.id = none) ∧
    (∀ (st : RMState) (c : JKey) (o : ScrollOpts),
        scrollByIdParse (.twoOpts o) = (none, some o) ∧
        (st.scrollToById c (.twoOpts o)).1.ref = (st.get1 c).map .entry) ∧
    (∀ (st : RMState) (c : JKey) (s : String),
        scrollByIdParse (.twoStr s) = (some (.str s), none) ∧
        (st.scrollToById c (.twoStr s)).1.ref = (st.get2 c (.str s)).map .item ∧
        (st.scrollToById c (.twoStr s)).1.id = some (.str s)) := by
  have href : ∀ (st : RMState) (c : JKey) (args : ScrollByIdArgs),
      (st.scrollToById c args).1.ref = st.getTarget c (scrollByIdParse args).1 ∧
      (st.scrollToById c args).1.id = (scrollByIdParse args).1 := by
    intro st c args
    cases h : st.getTarget c (scrollByIdParse args).1 with
    | none => simp [RMState.scrollToById, h]
    | some t => simp [RMState.scrollToById, h]
  refine ⟨fun st c n => ⟨rfl, ?_, ?_⟩, fun st c o => ⟨rfl, ?_⟩,
    fun st c s => ⟨rfl, ?_, ?_⟩⟩
  · exact (href st c (.twoNum n)).1
  · exact (href st c (.twoNum n)).2
  · exact (href st c (.twoOpts o)).1
  · exact (href st c (.twoStr s)).1
  · exact (href st c (.twoStr s)).2
